import Mathlib

/-!
Shallow embedding of the ccls indexing-core header (`src/clang_tu.h`):
the crash-recovery shim `RunSafely`, the `Id<K>` handle algebra,
`SymbolIdx`, `Reference` and its ordering, the `NameMixin::Name`
substring accessor, and the `TypeDef`/`FuncDef`/`VarDef` equality
operators.  Machine integers are modelled as `Nat`/`Int` with explicit
reductions where C++ conversions matter; fallible reads return `Option`.
-/

namespace Ccls

/-! ## Crash-recovery shim

`RunSafely(CRC, fn)` reads the environment variable `CCLS_CRASH_RECOVERY`;
when it is set and `strcmp(env, "0") == 0` it calls `fn()` directly and
returns `true`, otherwise it returns `CRC.RunSafely(fn)`.  The environment
lookup is modelled as an `Option String` (`none` = unset), the closure as a
state transformer, and `CRC.RunSafely` as an opaque function producing the
final state and a Bool result. -/

def RunSafely {σ : Type} (env : Option String) (fn : σ → σ)
    (crcRunSafely : (σ → σ) → σ → σ × Bool) (s : σ) : σ × Bool :=
  match env with
  | some e => if e = "0" then (fn s, true) else crcRunSafely fn s
  | none => crcRunSafely fn s

/-! ## Id algebra

`using RawId = uint32_t; template <typename T> struct Id { RawId id; ... }`.
The phantom kind parameter is an `IdKind`; the raw value is a `Nat`
(a 32-bit unsigned value in the source, so conversions from signed
integers reduce mod `2^32`). -/

inductive IdKind
  | file
  | type
  | func
  | var
  | void
  | queryFile
deriving DecidableEq

/-- C++ conversion of a signed integer to `RawId = uint32_t`. -/
def RawIdOf (n : Int) : Nat := (n % (2 : Int) ^ 32).toNat

/-- `Id<T>` with its raw 32-bit value. -/
structure IdT (K : IdKind) where
  id : Nat
deriving DecidableEq

/-- Default constructor `Id() : id(-1)`. -/
def idDefault (K : IdKind) : IdT K := ⟨RawIdOf (-1)⟩

/-- `bool Valid() const { return id != RawId(-1); }` -/
def idValid {K : IdKind} (a : IdT K) : Bool := decide (a.id ≠ RawIdOf (-1))

/-- `bool operator==(const Id& o) const { return id == o.id; }` -/
def idEq {K : IdKind} (a b : IdT K) : Bool := decide (a.id = b.id)

/-- `bool operator<(const Id& o) const { return id < o.id; }` -/
def idLt {K : IdKind} (a b : IdT K) : Bool := decide (a.id < b.id)

/-- `std::hash<Id<T>>` forwards to `hash<RawId>()(k.id)`; the raw-integer
hash is a parameter `h`. -/
def idHash {K : IdKind} (h : Nat → Nat) (a : IdT K) : Nat := h a.id

/-- The implicit widening constructor `Id(Id<U> o) : id(o.id)` available for
`Id<T> -> Id<void>`. -/
def widenId {K : IdKind} (o : IdT K) : IdT IdKind.void := ⟨o.id⟩

/-- The explicit cross-kind constructor `explicit Id(Id<U> o) : id(o.id)`. -/
def narrowId {K K' : IdKind} (o : IdT K) : IdT K' := ⟨o.id⟩

/-! ## Positions, ranges, symbol kinds, roles

`Position` and `Range` live in `position.h`, which is not part of the
sources here; they are modelled from the spec. -/

/-- Modelled from the spec: `position.h` is not under src/.  A source
position is a line/column pair; equality and total order are
lexicographic. -/
structure Position where
  line : Int
  col : Int
deriving DecidableEq

/-- Modelled from the spec: lexicographic order on (line, col). -/
def posLt (a b : Position) : Bool :=
  decide (a.line < b.line) || (decide (a.line = b.line) && decide (a.col < b.col))

/-- Modelled from the spec: component-wise equality. -/
def posEq (a b : Position) : Bool :=
  decide (a.line = b.line) && decide (a.col = b.col)

/-- Modelled from the spec: a half-open `[begin, end)` pair of positions. -/
structure Range where
  start : Position
  end_ : Position
deriving DecidableEq

/-- Modelled from the spec: lexicographic order on (start, end). -/
def rangeLt (a b : Range) : Bool :=
  posLt a.start b.start || (posEq a.start b.start && posLt a.end_ b.end_)

/-- Modelled from the spec: component-wise equality. -/
def rangeEq (a b : Range) : Bool :=
  posEq a.start b.start && posEq a.end_ b.end_

/-- Modelled from the spec: `SymbolKind ∈ {Invalid, File, Type, Func, Var}`
(`symbol.h` is not under src/), an enum over `uint8_t`. -/
inductive SymbolKind
  | Invalid
  | File
  | Type
  | Func
  | Var
deriving DecidableEq

/-- Underlying enum value of a `SymbolKind`. -/
def skVal : SymbolKind → Nat
  | .Invalid => 0
  | .File => 1
  | .Type => 2
  | .Func => 3
  | .Var => 4

/-- Enum comparison: the underlying values are compared. -/
def skLt (a b : SymbolKind) : Bool := decide (skVal a < skVal b)

/-- Enum equality. -/
def skEqb (a b : SymbolKind) : Bool := decide (a = b)

/-! `Role` is a bitset over `uint16_t` (Declaration, Definition, Reference,
Read, Write, Call, Dynamic, Address, Implicit); modelled as its underlying
`Nat` value, which is what its comparison operators use. -/

/-! ## SymbolIdx and Reference -/

/-- `struct SymbolIdx { Id<void> id; SymbolKind kind; ... }` -/
structure SymbolIdx where
  id : IdT IdKind.void
  kind : SymbolKind
deriving DecidableEq

/-- `bool operator==(const SymbolIdx& o) const { return id == o.id && kind == o.kind; }` -/
def symbolIdxEq (a b : SymbolIdx) : Bool :=
  idEq a.id b.id && skEqb a.kind b.kind

/-- `bool operator<(const SymbolIdx& o) const { return !(id == o.id) ? id < o.id : kind < o.kind; }` -/
def symbolIdxLt (a b : SymbolIdx) : Bool :=
  if !(idEq a.id b.id) then idLt a.id b.id else skLt a.kind b.kind

/-- The strict lexicographic order on the pair (id, kind), stated the way
claim C9 reads. -/
def symbolIdxLexLt (a b : SymbolIdx) : Prop :=
  a.id.id < b.id.id ∨ (a.id = b.id ∧ skVal a.kind < skVal b.kind)

/-- `struct Reference { Range range; Id<void> id; SymbolKind kind; Role role; ... }` -/
structure Reference where
  range : Range
  id : IdT IdKind.void
  kind : SymbolKind
  role : Nat
deriving DecidableEq

/-- `bool operator<(const Reference& o) const { return ToTuple() < o.ToTuple(); }`
with `ToTuple() = make_tuple(range, id, kind, role)`:
`std::tuple::operator<` compares head components with `<` in both
directions and recurses on the tail. -/
def refLt (a b : Reference) : Bool :=
  rangeLt a.range b.range ||
    (!rangeLt b.range a.range &&
      (idLt a.id b.id ||
        (!idLt b.id a.id &&
          (skLt a.kind b.kind ||
            (!skLt b.kind a.kind && decide (a.role < b.role))))))

/-- `bool operator==(const Reference& o) const { return ToTuple() == o.ToTuple(); }`:
component-wise equality of the tuple (range, id, kind, role). -/
def refEq (a b : Reference) : Bool :=
  rangeEq a.range b.range && idEq a.id b.id && skEqb a.kind b.kind &&
    decide (a.role = b.role)

/-- The tie-break of the reference order once the ranges are equal: by the
referenced id, then the kind, then the role. -/
def tailLt (a b : Reference) : Prop :=
  a.id.id < b.id.id ∨
    (a.id = b.id ∧
      (skVal a.kind < skVal b.kind ∨ (a.kind = b.kind ∧ a.role < b.role)))

/-- The reference order stated the way claim C3 reads: primarily by the
range, ties broken by `tailLt` (referenced id, then kind, then role). -/
def refLexLt (a b : Reference) : Prop :=
  rangeLt a.range b.range = true ∨ (a.range = b.range ∧ tailLt a b)

/-! ## NameMixin

`NameMixin<D>::Name(bool qualified)` builds a `string_view` into
`detailed_name`: the qualified branch is
`string_view(c_str() + qual_name_offset, short_name_offset - qual_name_offset + short_name_size)`,
the unqualified branch is
`string_view(c_str() + short_name_offset, short_name_size)`.
The offsets are `int16_t`, so they are signed; constructing a view
whose start or extent leaves the string is undefined behaviour and is
modelled as `none`. -/

/-- The fields of a def record that `NameMixin::Name` reads. -/
structure NameInfo where
  detailed_name : List Char
  qual_name_offset : Int
  short_name_offset : Int
  short_name_size : Int

/-- A view of `len` chars at offset `start` of `s`: `some` slice when the
view lies within the string, `none` (undefined behaviour) otherwise. -/
def readChars (s : List Char) (start len : Int) : Option (List Char) :=
  if 0 ≤ start ∧ 0 ≤ len ∧ start + len ≤ (s.length : Int) then
    some ((s.drop start.toNat).take len.toNat)
  else none

/-- `NameMixin::Name` from the source, over the fields it reads. -/
def Name (d : NameInfo) (qualified : Bool) : Option (List Char) :=
  if qualified then
    readChars d.detailed_name d.qual_name_offset
      (d.short_name_offset - d.qual_name_offset + d.short_name_size)
  else
    readChars d.detailed_name d.short_name_offset d.short_name_size

/-- The substring of `s` starting at `start` of length `len`, following the
words of claims C2/C10. -/
def substrSpec (s : List Char) (start len : Int) : List Char :=
  (s.drop start.toNat).take len.toNat

/-! ## Entity def records

`lsSymbolKind` (the editor-facing taxonomy, `lsp.h`) and `StorageClass`
are enums whose declarations are not under src/; their constructor lists
are modelled from the spec.  Only distinctness of constructors matters for
the claims below. -/

/-- Modelled from the spec: the editor-facing symbol taxonomy. -/
inductive lsSymbolKind
  | Unknown
  | File
  | Namespace
  | Class
  | Struct
  | Method
  | Constructor
  | Function
  | Field
  | Variable
  | Parameter
  | Enum
  | EnumMember
  | TypeAlias
deriving DecidableEq

/-- Modelled from the spec: `StorageClass ∈ {Invalid, None, Extern, Static,
PrivateExtern, Auto, Register}`. -/
inductive StorageClass
  | Invalid
  | None
  | Extern
  | Static
  | PrivateExtern
  | Auto
  | Register
deriving DecidableEq

/-- `struct Use : Reference { Id<QueryFile> file; ... }` -/
structure UseT extends Reference where
  file : IdT IdKind.queryFile

/-- `Use` declares no `operator==` of its own, so comparing two `Use`
values resolves to `Reference::operator==` on the base subobject: the
`file` member is not compared. -/
def useEq (a b : UseT) : Bool := refEq a.toReference b.toReference

/-- `Maybe<T>::operator==`: both empty, or both engaged with equal
values. -/
def maybeEq {α : Type} (eq : α → α → Bool) : Option α → Option α → Bool
  | none, none => true
  | some x, some y => eq x y
  | _, _ => false

/-- `std::vector<Id<K>>::operator==`: equal sizes and element-wise
`Id::operator==`. -/
def idListEq {K : IdKind} : List (IdT K) → List (IdT K) → Bool
  | [], [] => true
  | x :: xs, y :: ys => idEq x y && idListEq xs ys
  | _, _ => false

/-- `std::vector<SymbolRef>::operator==`: equal sizes and element-wise
`Reference::operator==` (`SymbolRef` adds no members to `Reference`). -/
def refListEq : List Reference → List Reference → Bool
  | [], [] => true
  | x :: xs, y :: ys => refEq x y && refListEq xs ys
  | _, _ => false

/-- `TypeDef<F>` instantiated at the index family. -/
structure TypeDefT where
  detailed_name : String
  hover : Option String
  comments : Option String
  spell : Option UseT
  extent : Option UseT
  bases : List (IdT IdKind.type)
  types : List (IdT IdKind.type)
  funcs : List (IdT IdKind.func)
  vars : List (IdT IdKind.var)
  file : IdT IdKind.file
  alias_of : Option (IdT IdKind.type)
  qual_name_offset : Int
  short_name_offset : Int
  short_name_size : Int
  kind : lsSymbolKind

/-- `TypeDef::operator==`, field for field as written in the source:
`detailed_name`, `spell`, `extent`, `alias_of`, `bases`, `types`, `funcs`,
`vars`, `kind`, `hover`, `comments`. -/
def typeDefEq (d o : TypeDefT) : Bool :=
  decide (d.detailed_name = o.detailed_name) && maybeEq useEq d.spell o.spell &&
    maybeEq useEq d.extent o.extent && maybeEq idEq d.alias_of o.alias_of &&
    idListEq d.bases o.bases && idListEq d.types o.types &&
    idListEq d.funcs o.funcs && idListEq d.vars o.vars &&
    decide (d.kind = o.kind) && decide (d.hover = o.hover) &&
    decide (d.comments = o.comments)

/-- `FuncDef<F>` instantiated at the index family. -/
structure FuncDefT where
  detailed_name : String
  hover : Option String
  comments : Option String
  spell : Option UseT
  extent : Option UseT
  bases : List (IdT IdKind.func)
  vars : List (IdT IdKind.var)
  callees : List Reference
  file : IdT IdKind.file
  declaring_type : Option (IdT IdKind.type)
  qual_name_offset : Int
  short_name_offset : Int
  short_name_size : Int
  kind : lsSymbolKind
  storage : StorageClass

/-- `FuncDef::operator==`, field for field as written in the source:
`detailed_name`, `spell`, `extent`, `declaring_type`, `bases`, `vars`,
`callees`, `kind`, `storage`, `hover`, `comments`. -/
def funcDefEq (d o : FuncDefT) : Bool :=
  decide (d.detailed_name = o.detailed_name) && maybeEq useEq d.spell o.spell &&
    maybeEq useEq d.extent o.extent &&
    maybeEq idEq d.declaring_type o.declaring_type &&
    idListEq d.bases o.bases && idListEq d.vars o.vars &&
    refListEq d.callees o.callees && decide (d.kind = o.kind) &&
    decide (d.storage = o.storage) && decide (d.hover = o.hover) &&
    decide (d.comments = o.comments)

/-- `VarDef<F>` instantiated at the index family. -/
structure VarDefT where
  detailed_name : String
  hover : Option String
  comments : Option String
  spell : Option UseT
  extent : Option UseT
  file : IdT IdKind.file
  type : Option (IdT IdKind.type)
  qual_name_offset : Int
  short_name_offset : Int
  short_name_size : Int
  kind : lsSymbolKind
  storage : StorageClass

/-- `bool is_local() const { return kind == lsSymbolKind::Variable; }` -/
def VarDefT.is_local (v : VarDefT) : Bool :=
  decide (v.kind = lsSymbolKind.Variable)

/-- `VarDef::operator==`, field for field as written in the source:
`detailed_name`, `spell`, `extent`, `type`, `kind`, `storage`, `hover`,
`comments`. -/
def varDefEq (d o : VarDefT) : Bool :=
  decide (d.detailed_name = o.detailed_name) && maybeEq useEq d.spell o.spell &&
    maybeEq useEq d.extent o.extent && maybeEq idEq d.type o.type &&
    decide (d.kind = o.kind) && decide (d.storage = o.storage) &&
    decide (d.hover = o.hover) && decide (d.comments = o.comments)

end Ccls

/-- Claim C1: RunSafely consults CCLS_CRASH_RECOVERY: when the variable is
set to the literal string "0" it invokes the closure directly (no
crash-recovery context) and returns true; for any other value, or when the
variable is unset, it runs the closure under CRC.RunSafely and returns that
result. -/
theorem Ccls.runSafely_env_switch {σ : Type} (env : Option String) (fn : σ → σ)
    (crcRunSafely : (σ → σ) → σ → σ × Bool) (s : σ) :
    (env = some "0" → Ccls.RunSafely env fn crcRunSafely s = (fn s, true)) ∧
    (env ≠ some "0" → Ccls.RunSafely env fn crcRunSafely s = crcRunSafely fn s) := by
  constructor
  · rintro rfl
    simp [Ccls.RunSafely]
  · intro h
    match env with
    | none => rfl
    | some e =>
      have he : e ≠ "0" := by rintro rfl; exact h rfl
      simp [Ccls.RunSafely, he]

/-- Witness for C1 at concrete inputs: with the variable set to "0" the
closure runs directly and true is returned; with it unset the CRC result is
returned. -/
theorem Ccls.runSafely_env_switch_witness :
    Ccls.RunSafely (some "0") Nat.succ (fun f s => (f s, false)) 0 = (1, true) ∧
    Ccls.RunSafely (none : Option String) Nat.succ (fun f s => (f s, false)) 0 = (1, false) :=
  ⟨(Ccls.runSafely_env_switch (some "0") Nat.succ (fun f s => (f s, false)) 0).1 rfl,
   (Ccls.runSafely_env_switch none Nat.succ (fun f s => (f s, false)) 0).2 (by simp)⟩

/-- Claim C4: Id is a 32-bit unsigned handle whose all-ones value is the
invalid sentinel: a default-constructed id has raw value 2^32 - 1, and
Valid() returns false exactly when the raw value equals 2^32 - 1, true for
every other 32-bit value. -/
theorem Ccls.id_invalid_sentinel (K : Ccls.IdKind) (a : Ccls.IdT K)
    (h : a.id < 2 ^ 32) :
    (Ccls.idDefault K).id = 2 ^ 32 - 1 ∧
    (Ccls.idValid a = false ↔ a.id = 2 ^ 32 - 1) := by
  have hraw : Ccls.RawIdOf (-1) = 2 ^ 32 - 1 := by decide
  refine ⟨hraw, ?_⟩
  simp [Ccls.idValid, hraw]

/-- Witness for C4: the id with raw value 5 is 32-bit and valid, the
default id is not. -/
theorem Ccls.id_invalid_sentinel_witness :
    Ccls.idValid (⟨5⟩ : Ccls.IdT Ccls.IdKind.void) = false ↔ (5 : Nat) = 2 ^ 32 - 1 :=
  (Ccls.id_invalid_sentinel Ccls.IdKind.void ⟨5⟩ (by norm_num)).2

/-- Claim C5: equality, the total order, and the hash of Id depend only on
the raw 32-bit value: a == b iff a.id == b.id, a < b iff a.id < b.id (a
strict total order: irreflexive, transitive, trichotomous), and hash(a) is
the raw-integer hash of a.id. -/
theorem Ccls.id_eq_lt_hash_raw (K : Ccls.IdKind) (h : Nat → Nat)
    (a b c : Ccls.IdT K) :
    (Ccls.idEq a b = true ↔ a.id = b.id) ∧
    (a = b ↔ a.id = b.id) ∧
    (Ccls.idLt a b = true ↔ a.id < b.id) ∧
    Ccls.idHash h a = h a.id ∧
    Ccls.idLt a a = false ∧
    (Ccls.idLt a b = true → Ccls.idLt b c = true → Ccls.idLt a c = true) ∧
    (Ccls.idLt a b = true ∨ a = b ∨ Ccls.idLt b a = true) := by
  obtain ⟨a⟩ := a
  obtain ⟨b⟩ := b
  obtain ⟨c⟩ := c
  simp only [Ccls.idEq, Ccls.idLt, Ccls.idHash, Ccls.IdT.mk.injEq,
    decide_eq_true_eq, decide_eq_false_iff_not, true_and, and_true]
  omega

/-- Witness for C5: transitivity of the raw-value order at concrete ids. -/
theorem Ccls.id_eq_lt_hash_raw_witness :
    Ccls.idLt (⟨1⟩ : Ccls.IdT Ccls.IdKind.void) ⟨3⟩ = true :=
  (Ccls.id_eq_lt_hash_raw Ccls.IdKind.void (fun n => n) ⟨1⟩ ⟨2⟩ ⟨3⟩).2.2.2.2.2.1
    (by decide) (by decide)

/-- Claim C6: kind conversions of Id preserve the raw value: widening any
Id to the void kind and explicitly converting back yields an id equal to
the original; both conversions are the identity on the underlying value. -/
theorem Ccls.id_kind_conversion_preserves_raw (K : Ccls.IdKind)
    (a : Ccls.IdT K) (b : Ccls.IdT Ccls.IdKind.void) :
    (Ccls.narrowId (Ccls.widenId a) : Ccls.IdT K) = a ∧
    (Ccls.widenId a).id = a.id ∧
    (Ccls.narrowId b : Ccls.IdT K).id = b.id := by
  obtain ⟨a⟩ := a
  exact ⟨rfl, rfl, rfl⟩

/-! Shared helper lemmas. -/

/-- The underlying enum value determines the `SymbolKind`. -/
theorem Ccls.skVal_inj (x y : Ccls.SymbolKind) :
    Ccls.skVal x = Ccls.skVal y ↔ x = y := by
  cases x <;> cases y <;> decide

/-- `Reference::operator==` is reflexive. -/
theorem Ccls.refEq_refl (a : Ccls.Reference) : Ccls.refEq a a = true := by
  obtain ⟨⟨as', ae⟩, ⟨ai⟩, ak, ar⟩ := a
  simp [Ccls.refEq, Ccls.rangeEq, Ccls.posEq, Ccls.idEq, Ccls.skEqb]

/-- `Use` comparison (via the `Reference` base) is reflexive. -/
theorem Ccls.useEq_refl (u : Ccls.UseT) : Ccls.useEq u u = true :=
  Ccls.refEq_refl u.toReference

/-- `Id::operator==` is reflexive. -/
theorem Ccls.idEq_refl {K : Ccls.IdKind} (a : Ccls.IdT K) :
    Ccls.idEq a a = true := by
  simp [Ccls.idEq]

/-- `Maybe<Use>` comparison is reflexive. -/
theorem Ccls.optUseEq_refl (o : Option Ccls.UseT) :
    Ccls.maybeEq Ccls.useEq o o = true := by
  cases o <;> simp [Ccls.maybeEq, Ccls.useEq_refl]

/-- `Maybe<Id<K>>` comparison is reflexive. -/
theorem Ccls.optIdEq_refl {K : Ccls.IdKind} (o : Option (Ccls.IdT K)) :
    Ccls.maybeEq Ccls.idEq o o = true := by
  cases o <;> simp [Ccls.maybeEq, Ccls.idEq_refl]

/-- `vector<Id<K>>` comparison is reflexive. -/
theorem Ccls.idListEq_refl {K : Ccls.IdKind} (l : List (Ccls.IdT K)) :
    Ccls.idListEq l l = true := by
  induction l with
  | nil => rfl
  | cons x xs ih => simp [Ccls.idListEq, Ccls.idEq_refl, ih]

/-- `vector<SymbolRef>` comparison is reflexive. -/
theorem Ccls.refListEq_refl (l : List Ccls.Reference) :
    Ccls.refListEq l l = true := by
  induction l with
  | nil => rfl
  | cons x xs ih => simp [Ccls.refListEq, Ccls.refEq_refl, ih]

/-- `SymbolIdx::operator<` unfolded to its raw components. -/
theorem Ccls.symbolIdxLt_iff (a b : Ccls.SymbolIdx) :
    Ccls.symbolIdxLt a b = true ↔
      (a.id.id < b.id.id ∨
        (a.id.id = b.id.id ∧ Ccls.skVal a.kind < Ccls.skVal b.kind)) := by
  by_cases h : a.id.id = b.id.id
  · simp [Ccls.symbolIdxLt, Ccls.idEq, Ccls.idLt, Ccls.skLt, h]
  · simp [Ccls.symbolIdxLt, Ccls.idEq, Ccls.idLt, Ccls.skLt, h]

/-- `rangeEq` is structural equality of ranges. -/
theorem Ccls.rangeEq_iff (a b : Ccls.Range) :
    Ccls.rangeEq a b = true ↔ a = b := by
  obtain ⟨⟨asl, asc⟩, ⟨ael, aec⟩⟩ := a
  obtain ⟨⟨bsl, bsc⟩, ⟨bel, bec⟩⟩ := b
  simp only [Ccls.rangeEq, Ccls.posEq, Bool.and_eq_true, decide_eq_true_eq,
    Ccls.Range.mk.injEq, Ccls.Position.mk.injEq]

/-- The range order is irreflexive. -/
theorem Ccls.rangeLt_irrefl (a : Ccls.Range) : Ccls.rangeLt a a = false := by
  obtain ⟨⟨asl, asc⟩, ⟨ael, aec⟩⟩ := a
  simp only [Ccls.rangeLt, Ccls.posLt, Ccls.posEq, Bool.or_eq_false_iff,
    Bool.and_eq_false_iff, decide_eq_false_iff_not, decide_eq_true_eq]
  omega

/-- The range order is transitive. -/
theorem Ccls.rangeLt_trans (a b c : Ccls.Range) (h1 : Ccls.rangeLt a b = true)
    (h2 : Ccls.rangeLt b c = true) : Ccls.rangeLt a c = true := by
  obtain ⟨⟨asl, asc⟩, ⟨ael, aec⟩⟩ := a
  obtain ⟨⟨bsl, bsc⟩, ⟨bel, bec⟩⟩ := b
  obtain ⟨⟨csl, csc⟩, ⟨cel, cec⟩⟩ := c
  simp only [Ccls.rangeLt, Ccls.posLt, Ccls.posEq, Bool.or_eq_true,
    Bool.and_eq_true, decide_eq_true_eq] at h1 h2 ⊢
  omega

/-- Two ranges neither of which is below the other are equal. -/
theorem Ccls.rangeLt_connex (a b : Ccls.Range)
    (h1 : Ccls.rangeLt a b = false) (h2 : Ccls.rangeLt b a = false) :
    a = b := by
  obtain ⟨⟨asl, asc⟩, ⟨ael, aec⟩⟩ := a
  obtain ⟨⟨bsl, bsc⟩, ⟨bel, bec⟩⟩ := b
  simp only [Ccls.rangeLt, Ccls.posLt, Ccls.posEq, Bool.or_eq_false_iff,
    Bool.and_eq_false_iff, decide_eq_false_iff_not,
    decide_eq_true_eq] at h1 h2
  simp only [Ccls.Range.mk.injEq, Ccls.Position.mk.injEq]
  omega

/-- The reference tie-break is irreflexive. -/
theorem Ccls.tailLt_irrefl (a : Ccls.Reference) : ¬Ccls.tailLt a a := by
  obtain ⟨r, ⟨ai⟩, ak, ar⟩ := a
  simp only [Ccls.tailLt, Ccls.IdT.mk.injEq, ← Ccls.skVal_inj]
  omega

/-- The reference tie-break is transitive. -/
theorem Ccls.tailLt_trans (a b c : Ccls.Reference) (h1 : Ccls.tailLt a b)
    (h2 : Ccls.tailLt b c) : Ccls.tailLt a c := by
  obtain ⟨ra, ⟨ai⟩, ak, ar⟩ := a
  obtain ⟨rb, ⟨bi⟩, bk, br⟩ := b
  obtain ⟨rc, ⟨ci⟩, ck, cr⟩ := c
  simp only [Ccls.tailLt, Ccls.IdT.mk.injEq, ← Ccls.skVal_inj] at h1 h2 ⊢
  omega

/-- If neither reference tie-break holds, id, kind and role agree. -/
theorem Ccls.tailLt_connex (a b : Ccls.Reference) (h1 : ¬Ccls.tailLt a b)
    (h2 : ¬Ccls.tailLt b a) :
    a.id = b.id ∧ a.kind = b.kind ∧ a.role = b.role := by
  obtain ⟨ra, ⟨ai⟩, ak, ar⟩ := a
  obtain ⟨rb, ⟨bi⟩, bk, br⟩ := b
  simp only [Ccls.tailLt, Ccls.IdT.mk.injEq, ← Ccls.skVal_inj] at h1 h2 ⊢
  omega

/-- `Reference::operator<` agrees with the lexicographic order. -/
theorem Ccls.refLt_iff (a b : Ccls.Reference) :
    Ccls.refLt a b = true ↔ Ccls.refLexLt a b := by
  obtain ⟨⟨⟨asl, asc⟩, ⟨ael, aec⟩⟩, ⟨ai⟩, ak, ar⟩ := a
  obtain ⟨⟨⟨bsl, bsc⟩, ⟨bel, bec⟩⟩, ⟨bi⟩, bk, br⟩ := b
  simp only [Ccls.refLt, Ccls.refLexLt, Ccls.tailLt, Ccls.rangeLt,
    Ccls.posLt, Ccls.posEq, Ccls.idLt, Ccls.idEq, Ccls.skLt,
    Bool.or_eq_true, Bool.and_eq_true, Bool.not_eq_true',
    Bool.or_eq_false_iff, Bool.and_eq_false_iff,
    decide_eq_true_eq, decide_eq_false_iff_not,
    Ccls.Range.mk.injEq, Ccls.Position.mk.injEq, Ccls.IdT.mk.injEq,
    ← Ccls.skVal_inj]
  omega

/-- `Reference::operator==` is component-wise equality of the tuple. -/
theorem Ccls.refEq_iff (a b : Ccls.Reference) :
    Ccls.refEq a b = true ↔
      (a.range = b.range ∧ a.id = b.id ∧ a.kind = b.kind ∧ a.role = b.role) := by
  obtain ⟨⟨⟨asl, asc⟩, ⟨ael, aec⟩⟩, ⟨ai⟩, ak, ar⟩ := a
  obtain ⟨⟨⟨bsl, bsc⟩, ⟨bel, bec⟩⟩, ⟨bi⟩, bk, br⟩ := b
  simp only [Ccls.refEq, Ccls.rangeEq, Ccls.posEq, Ccls.idEq, Ccls.skEqb,
    Bool.and_eq_true, decide_eq_true_eq,
    Ccls.Range.mk.injEq, Ccls.Position.mk.injEq, Ccls.IdT.mk.injEq]
  tauto

/-- `Reference::operator==` is structural equality. -/
theorem Ccls.refEq_eq (a b : Ccls.Reference) :
    Ccls.refEq a b = true ↔ a = b := by
  rw [Ccls.refEq_iff]
  obtain ⟨ra, ai, ak, ar⟩ := a
  obtain ⟨rb, bi, bk, br⟩ := b
  simp only [Ccls.Reference.mk.injEq]

/-- Claim C3: Reference::operator< is the lexicographic order on the tuple
(range, id, kind, role) — primary key the range, ties broken by the
referenced id, the kind and the role — and Reference::operator== holds
exactly when all four components are equal; the order is strict and total
(irreflexive, transitive, trichotomous and exclusive with equality), so
sorting SymbolRef/Use lists with it is deterministic with range as the
primary key. -/
theorem Ccls.reference_order (a b c : Ccls.Reference) :
    (Ccls.refLt a b = true ↔ Ccls.refLexLt a b) ∧
    (Ccls.refEq a b = true ↔
      (a.range = b.range ∧ a.id = b.id ∧ a.kind = b.kind ∧ a.role = b.role)) ∧
    Ccls.refLt a a = false ∧
    (Ccls.refLt a b = true → Ccls.refLt b c = true → Ccls.refLt a c = true) ∧
    (Ccls.refLt a b = true ∨ Ccls.refEq a b = true ∨ Ccls.refLt b a = true) ∧
    ¬(Ccls.refLt a b = true ∧ Ccls.refLt b a = true) ∧
    ¬(Ccls.refLt a b = true ∧ Ccls.refEq a b = true) := by
  have irr : ∀ x : Ccls.Reference, Ccls.refLt x x = false := by
    intro x
    rw [Bool.eq_false_iff, ne_eq, Ccls.refLt_iff]
    rintro (h | ⟨-, h⟩)
    · simp [Ccls.rangeLt_irrefl] at h
    · exact Ccls.tailLt_irrefl x h
  have tr : ∀ x y z : Ccls.Reference, Ccls.refLt x y = true →
      Ccls.refLt y z = true → Ccls.refLt x z = true := by
    intro x y z hxy hyz
    rw [Ccls.refLt_iff] at hxy hyz ⊢
    rcases hxy with h1 | ⟨e1, t1⟩ <;> rcases hyz with h2 | ⟨e2, t2⟩
    · exact Or.inl (Ccls.rangeLt_trans _ _ _ h1 h2)
    · exact Or.inl (by rwa [← e2])
    · exact Or.inl (by rwa [e1])
    · exact Or.inr ⟨e1.trans e2, Ccls.tailLt_trans _ _ _ t1 t2⟩
  refine ⟨Ccls.refLt_iff a b, Ccls.refEq_iff a b, irr a, tr a b c, ?_, ?_, ?_⟩
  · by_cases hab : Ccls.rangeLt a.range b.range = true
    · exact Or.inl ((Ccls.refLt_iff a b).2 (Or.inl hab))
    · by_cases hba : Ccls.rangeLt b.range a.range = true
      · exact Or.inr (Or.inr ((Ccls.refLt_iff b a).2 (Or.inl hba)))
      · have he : a.range = b.range :=
          Ccls.rangeLt_connex _ _ (Bool.eq_false_iff.mpr hab)
            (Bool.eq_false_iff.mpr hba)
        by_cases ht : Ccls.tailLt a b
        · exact Or.inl ((Ccls.refLt_iff a b).2 (Or.inr ⟨he, ht⟩))
        · by_cases ht2 : Ccls.tailLt b a
          · exact Or.inr (Or.inr ((Ccls.refLt_iff b a).2
              (Or.inr ⟨he.symm, ht2⟩)))
          · obtain ⟨hi, hk, hr⟩ := Ccls.tailLt_connex a b ht ht2
            exact Or.inr (Or.inl ((Ccls.refEq_iff a b).2 ⟨he, hi, hk, hr⟩))
  · rintro ⟨h1, h2⟩
    have h3 := tr a b a h1 h2
    rw [irr a] at h3
    exact Bool.false_ne_true h3
  · rintro ⟨h1, h2⟩
    have hab := (Ccls.refEq_eq a b).1 h2
    subst hab
    rw [irr a] at h1
    exact Bool.false_ne_true h1

/-- Witness for C3: transitivity of the order at three concrete
references that differ in their ranges. -/
theorem Ccls.reference_order_witness :
    Ccls.refLt ⟨⟨⟨1, 0⟩, ⟨1, 0⟩⟩, ⟨0⟩, Ccls.SymbolKind.Invalid, 0⟩
      ⟨⟨⟨3, 0⟩, ⟨3, 0⟩⟩, ⟨0⟩, Ccls.SymbolKind.Invalid, 0⟩ = true :=
  (Ccls.reference_order ⟨⟨⟨1, 0⟩, ⟨1, 0⟩⟩, ⟨0⟩, Ccls.SymbolKind.Invalid, 0⟩
      ⟨⟨⟨2, 0⟩, ⟨2, 0⟩⟩, ⟨0⟩, Ccls.SymbolKind.Invalid, 0⟩
      ⟨⟨⟨3, 0⟩, ⟨3, 0⟩⟩, ⟨0⟩, Ccls.SymbolKind.Invalid, 0⟩).2.2.2.1
    (by decide) (by decide)

/-- Claim C9: SymbolIdx::operator< is the lexicographic strict order on
the pair (id, kind) and SymbolIdx::operator== is component-wise equality;
together they form a strict total order consistent with equality
(irreflexive, transitive, and exactly one of a < b, b < a, a == b holds
for any two values). -/
theorem Ccls.symbolIdx_order (a b c : Ccls.SymbolIdx) :
    (Ccls.symbolIdxLt a b = true ↔ Ccls.symbolIdxLexLt a b) ∧
    (Ccls.symbolIdxEq a b = true ↔ (a.id = b.id ∧ a.kind = b.kind)) ∧
    Ccls.symbolIdxLt a a = false ∧
    (Ccls.symbolIdxLt a b = true → Ccls.symbolIdxLt b c = true →
      Ccls.symbolIdxLt a c = true) ∧
    ((Ccls.symbolIdxLt a b = true ∧ ¬Ccls.symbolIdxLt b a = true ∧
        ¬Ccls.symbolIdxEq a b = true) ∨
      (¬Ccls.symbolIdxLt a b = true ∧ Ccls.symbolIdxLt b a = true ∧
        ¬Ccls.symbolIdxEq a b = true) ∨
      (¬Ccls.symbolIdxLt a b = true ∧ ¬Ccls.symbolIdxLt b a = true ∧
        Ccls.symbolIdxEq a b = true)) := by
  obtain ⟨⟨ai⟩, ak⟩ := a
  obtain ⟨⟨bi⟩, bk⟩ := b
  obtain ⟨⟨ci⟩, ck⟩ := c
  simp only [Bool.eq_false_iff, ne_eq]
  simp only [Ccls.symbolIdxLt_iff, Ccls.symbolIdxEq, Ccls.symbolIdxLexLt,
    Ccls.idEq, Ccls.skEqb, Bool.and_eq_true,
    decide_eq_true_eq, Ccls.IdT.mk.injEq]
  simp only [← Ccls.skVal_inj, true_and, and_true]
  omega

/-- Witness for C9: transitivity of the order at three concrete values. -/
theorem Ccls.symbolIdx_order_witness :
    Ccls.symbolIdxLt ⟨⟨0⟩, Ccls.SymbolKind.Invalid⟩
      ⟨⟨1⟩, Ccls.SymbolKind.Invalid⟩ = true :=
  (Ccls.symbolIdx_order ⟨⟨0⟩, Ccls.SymbolKind.Invalid⟩
      ⟨⟨0⟩, Ccls.SymbolKind.Var⟩ ⟨⟨1⟩, Ccls.SymbolKind.Invalid⟩).2.2.2.1
    (by decide) (by decide)

/-- Claim C7: for every variable def v, v.is_local() returns true exactly
when v.kind equals lsSymbolKind::Variable, and false for every other
lsSymbolKind. -/
theorem Ccls.var_is_local_iff (v : Ccls.VarDefT) :
    v.is_local = true ↔ v.kind = Ccls.lsSymbolKind.Variable := by
  simp [Ccls.VarDefT.is_local]

/-- Claim C8: equality of entity defs ignores the owning file and the
name-offset fields: TypeDef::operator==, FuncDef::operator== and
VarDef::operator== do not compare `file`, `qual_name_offset`,
`short_name_offset` or `short_name_size`, so two defs that differ only in
those fields compare equal. -/
theorem Ccls.def_eq_ignores_file_and_offsets :
    (∀ (d : Ccls.TypeDefT) (f : Ccls.IdT Ccls.IdKind.file) (q s z : Int),
      Ccls.typeDefEq d
        { d with file := f, qual_name_offset := q, short_name_offset := s,
                 short_name_size := z } = true) ∧
    (∀ (d : Ccls.FuncDefT) (f : Ccls.IdT Ccls.IdKind.file) (q s z : Int),
      Ccls.funcDefEq d
        { d with file := f, qual_name_offset := q, short_name_offset := s,
                 short_name_size := z } = true) ∧
    (∀ (d : Ccls.VarDefT) (f : Ccls.IdT Ccls.IdKind.file) (q s z : Int),
      Ccls.varDefEq d
        { d with file := f, qual_name_offset := q, short_name_offset := s,
                 short_name_size := z } = true) := by
  refine ⟨fun d f q s z => ?_, fun d f q s z => ?_, fun d f q s z => ?_⟩
  · simp [Ccls.typeDefEq, Ccls.optUseEq_refl, Ccls.optIdEq_refl,
      Ccls.idListEq_refl, Ccls.refListEq_refl]
  · simp [Ccls.funcDefEq, Ccls.optUseEq_refl, Ccls.optIdEq_refl,
      Ccls.idListEq_refl, Ccls.refListEq_refl]
  · simp [Ccls.varDefEq, Ccls.optUseEq_refl, Ccls.optIdEq_refl]

/-- Counterexample to claim C2 as stated: at detailed_name = "" with
qual_name_offset = 0, short_name_offset = 0 and short_name_size = -1 (the
offsets are signed 16-bit fields) the claim's precondition
0 <= qual_name_offset <= short_name_offset and
short_name_offset + short_name_size <= length holds, yet Name(false) does
not return the substring at short_name_offset of length short_name_size:
the negative size converts to a huge size_t, so the view leaves the string
(undefined behaviour, `none` in the model). -/
theorem Ccls.name_substring_cex :
    0 ≤ (⟨[], 0, 0, -1⟩ : Ccls.NameInfo).qual_name_offset ∧
    (⟨[], 0, 0, -1⟩ : Ccls.NameInfo).qual_name_offset ≤
      (⟨[], 0, 0, -1⟩ : Ccls.NameInfo).short_name_offset ∧
    (⟨[], 0, 0, -1⟩ : Ccls.NameInfo).short_name_offset +
        (⟨[], 0, 0, -1⟩ : Ccls.NameInfo).short_name_size ≤
      ((⟨[], 0, 0, -1⟩ : Ccls.NameInfo).detailed_name.length : Int) ∧
    Ccls.Name (⟨[], 0, 0, -1⟩ : Ccls.NameInfo) false ≠
      some (Ccls.substrSpec (⟨[], 0, 0, -1⟩ : Ccls.NameInfo).detailed_name
        (⟨[], 0, 0, -1⟩ : Ccls.NameInfo).short_name_offset
        (⟨[], 0, 0, -1⟩ : Ccls.NameInfo).short_name_size) := by
  decide

/-- Claim C2 amended: with the additional hypothesis
0 <= short_name_size (forced by the counterexample above), for every
entity def whose offsets satisfy
0 <= qual_name_offset <= short_name_offset and
short_name_offset + short_name_size <= length of detailed_name, Name(false)
returns the substring of detailed_name starting at short_name_offset of
length short_name_size, and Name(true) returns the substring starting at
qual_name_offset of length
short_name_offset - qual_name_offset + short_name_size. -/
theorem Ccls.name_substring (d : Ccls.NameInfo)
    (h1 : 0 ≤ d.qual_name_offset)
    (h2 : d.qual_name_offset ≤ d.short_name_offset)
    (h3 : 0 ≤ d.short_name_size)
    (h4 : d.short_name_offset + d.short_name_size ≤
      (d.detailed_name.length : Int)) :
    Ccls.Name d false =
      some (Ccls.substrSpec d.detailed_name d.short_name_offset
        d.short_name_size) ∧
    Ccls.Name d true =
      some (Ccls.substrSpec d.detailed_name d.qual_name_offset
        (d.short_name_offset - d.qual_name_offset + d.short_name_size)) := by
  constructor
  · show Ccls.readChars d.detailed_name d.short_name_offset
      d.short_name_size = _
    unfold Ccls.readChars
    rw [if_pos ⟨by omega, h3, h4⟩]
    rfl
  · show Ccls.readChars d.detailed_name d.qual_name_offset
      (d.short_name_offset - d.qual_name_offset + d.short_name_size) = _
    unfold Ccls.readChars
    rw [if_pos ⟨h1, by omega, by omega⟩]
    rfl

/-- Witness for the amended C2 at a concrete def: detailed_name = "abc",
qual 0, short offset 1, short size 2. -/
theorem Ccls.name_substring_witness :
    Ccls.Name ⟨['a', 'b', 'c'], 0, 1, 2⟩ false =
      some (Ccls.substrSpec ['a', 'b', 'c'] 1 2) ∧
    Ccls.Name ⟨['a', 'b', 'c'], 0, 1, 2⟩ true =
      some (Ccls.substrSpec ['a', 'b', 'c'] 0 (1 - 0 + 2)) :=
  Ccls.name_substring ⟨['a', 'b', 'c'], 0, 1, 2⟩ (by decide) (by decide)
    (by decide) (by decide)

/-- Counterexample to claim C10 as stated: at detailed_name = "a" with
qual_name_offset = 1, short_name_offset = 1 and short_name_size = -1 the
claim's precondition holds, yet the computed qualified length
short_name_offset - qual_name_offset + short_name_size = -1 is negative
and the unqualified branch's view does not lie within the string. -/
theorem Ccls.name_inbounds_cex :
    0 ≤ (⟨['a'], 1, 1, -1⟩ : Ccls.NameInfo).qual_name_offset ∧
    (⟨['a'], 1, 1, -1⟩ : Ccls.NameInfo).qual_name_offset ≤
      (⟨['a'], 1, 1, -1⟩ : Ccls.NameInfo).short_name_offset ∧
    (⟨['a'], 1, 1, -1⟩ : Ccls.NameInfo).short_name_offset +
        (⟨['a'], 1, 1, -1⟩ : Ccls.NameInfo).short_name_size ≤
      ((⟨['a'], 1, 1, -1⟩ : Ccls.NameInfo).detailed_name.length : Int) ∧
    ¬(0 ≤ (⟨['a'], 1, 1, -1⟩ : Ccls.NameInfo).short_name_offset -
        (⟨['a'], 1, 1, -1⟩ : Ccls.NameInfo).qual_name_offset +
        (⟨['a'], 1, 1, -1⟩ : Ccls.NameInfo).short_name_size) ∧
    Ccls.Name (⟨['a'], 1, 1, -1⟩ : Ccls.NameInfo) false = none ∧
    Ccls.Name (⟨['a'], 1, 1, -1⟩ : Ccls.NameInfo) true = none := by
  decide

/-- Claim C10 amended: with the additional hypothesis 0 <= short_name_size
(forced by the counterexample above), NameMixin::Name never reads outside
detailed_name: under the precondition both the qualified and the
unqualified branch construct a view that lies within the string, and the
computed length short_name_offset - qual_name_offset + short_name_size is
non-negative. -/
theorem Ccls.name_inbounds (d : Ccls.NameInfo)
    (h1 : 0 ≤ d.qual_name_offset)
    (h2 : d.qual_name_offset ≤ d.short_name_offset)
    (h3 : 0 ≤ d.short_name_size)
    (h4 : d.short_name_offset + d.short_name_size ≤
      (d.detailed_name.length : Int)) :
    (Ccls.Name d true).isSome = true ∧ (Ccls.Name d false).isSome = true ∧
    0 ≤ d.short_name_offset - d.qual_name_offset + d.short_name_size := by
  refine ⟨?_, ?_, by omega⟩
  · show (Ccls.readChars d.detailed_name d.qual_name_offset
      (d.short_name_offset - d.qual_name_offset + d.short_name_size)).isSome = true
    unfold Ccls.readChars
    rw [if_pos ⟨h1, by omega, by omega⟩]
    rfl
  · show (Ccls.readChars d.detailed_name d.short_name_offset
      d.short_name_size).isSome = true
    unfold Ccls.readChars
    rw [if_pos ⟨by omega, h3, h4⟩]
    rfl

/-- Witness for the amended C10 at a concrete def: detailed_name = "x",
qual 0, short offset 0, short size 1. -/
theorem Ccls.name_inbounds_witness :
    (Ccls.Name ⟨['x'], 0, 0, 1⟩ true).isSome = true ∧
    (Ccls.Name ⟨['x'], 0, 0, 1⟩ false).isSome = true ∧
    (0 : Int) ≤ 0 - 0 + 1 :=
  Ccls.name_inbounds ⟨['x'], 0, 0, 1⟩ (by decide) (by decide) (by decide)
    (by decide)
